import Mathlib

/-
Verification of the p-bandai stock-monitor pipeline.

Shallow embedding of the two job-loop variants of the repository:
  * `pb_worker.py`  — the standalone continuous worker (`get_tasks`,
    `scrape_pb`, `send_line_push`, `main`);
  * `app.py`        — the timer-driven job (`scrape_premium_bandai`,
    `send_line_notification`, `check_watchlist_job`, the scheduler setup).

HTML field extraction in the source is regex driven; the concrete patterns
are embedded here as executable searches over `List Char` with the exact
lazy/greedy backtracking semantics of the Python patterns involved.
Machine randomness (`random.randint`) is modelled by an oracle argument,
network fetches by an explicit outcome type, and raised exceptions that the
source does not catch by an explicit abort flag threaded through the sweep.
-/

namespace PBandai

/-- Python `needle in hay` on strings: `needle` occurs as a contiguous
subsequence of `hay`. -/
def containsSeq (needle : List Char) : List Char → Bool
  | [] => needle.isPrefixOf []
  | c :: cs => needle.isPrefixOf (c :: cs) || containsSeq needle cs

/-- The suffix of `s` immediately after the first occurrence of the literal
`lit`, or `none` when `lit` does not occur.  Models the leading literal part
of a Python `re.search` whose pattern starts with that literal. -/
def dropAfterFirst (lit : List Char) : List Char → Option (List Char)
  | [] => if lit.isPrefixOf ([] : List Char) then some [] else none
  | c :: cs =>
    if lit.isPrefixOf (c :: cs) then some (List.drop lit.length (c :: cs))
    else dropAfterFirst lit cs

/-- Lazy `(.*?)` capture under `re.DOTALL`, terminated by the literal `term`:
returns the shortest capture together with the rest after the terminator. -/
def lazyUntil (term : List Char) : List Char → Option (List Char × List Char)
  | [] => if term.isPrefixOf ([] : List Char) then some ([], []) else none
  | c :: cs =>
    if term.isPrefixOf (c :: cs) then some ([], List.drop term.length (c :: cs))
    else
      match lazyUntil term cs with
      | some (g, r) => some (c :: g, r)
      | none => none

/-- Lazy `(.*?)` capture without `re.DOTALL`: the capture may not cross a
newline character. -/
def lazyUntilLine (term : List Char) : List Char → Option (List Char × List Char)
  | [] => if term.isPrefixOf ([] : List Char) then some ([], []) else none
  | c :: cs =>
    if term.isPrefixOf (c :: cs) then some ([], List.drop term.length (c :: cs))
    else if c = '\n' then none
    else
      match lazyUntilLine term cs with
      | some (g, r) => some (c :: g, r)
      | none => none

/-- `re.search` (no DOTALL) for a pattern `lit(.*?)term`: the engine tries
every start position left to right; a position where the literal matches but
the lazy capture hits a newline or the end restarts the search one character
further on. -/
def searchLitLazyLine (lit term : List Char) : List Char → Option (List Char)
  | [] => none
  | c :: cs =>
    if lit.isPrefixOf (c :: cs) then
      match lazyUntilLine term (List.drop lit.length (c :: cs)) with
      | some (g, _) => some g
      | none => searchLitLazyLine lit term cs
    else searchLitLazyLine lit term cs

/-- Maximal leading run of ASCII digits (Python `\d+`, greedy) and the rest. -/
def digitRun : List Char → List Char × List Char
  | [] => ([], [])
  | c :: cs =>
    if c.isDigit then
      match digitRun cs with
      | (d, r) => (c :: d, r)
    else ([], c :: cs)

/-- The literal prefix of the price pattern `price: '(\d+)'`. -/
def priceLit : List Char := "price: '".toList

/-- `re.search(r"price: '(\d+)'", html)`: at each occurrence of the literal a
nonempty greedy digit run must be closed by a quote (a shorter run would end
on a digit, so greedy backtracking cannot rescue a failed close), otherwise
the search restarts after the occurrence. -/
def searchPriceFrom : List Char → Option (List Char)
  | [] => none
  | c :: cs =>
    if priceLit.isPrefixOf (c :: cs) then
      match digitRun (List.drop priceLit.length (c :: cs)) with
      | (d, r) =>
        if d ≠ [] ∧ r.head? = some '\'' then some d
        else searchPriceFrom cs
    else searchPriceFrom cs

/-- Literal head of the stock pattern `orderstock_list = \{`. -/
def stockLit : List Char := "orderstock_list = \x7b".toList

/-- Literal head of the max-quantity pattern `ordermax_list = \{`. -/
def maxLit : List Char := "ordermax_list = \x7b".toList

/-- The three-character terminator `":"` of the first capture group. -/
def quoteColonQuote : List Char := ['\"', ':', '\"']

/-- The two-character sequence `":` closing the max-list key capture. -/
def quoteColon : List Char := ['\"', ':']

/-- `re.search(r'orderstock_list = \{.*?"(.*?)":"(.*?)"', html, re.DOTALL)`:
the captured (key, value) of the first entry of the inline stock literal.
Because every later candidate terminator itself contains the characters the
earlier stage is scanning for, the full lazy backtracking search collapses to
a cascade of first occurrences: first literal, first quote after it, first
`":"` after that, first closing quote after that. -/
def stockMatch (s : List Char) : Option (List Char × List Char) :=
  match dropAfterFirst stockLit s with
  | none => none
  | some r =>
    match lazyUntil ['\"'] r with
    | none => none
    | some (_, r0) =>
      match lazyUntil quoteColonQuote r0 with
      | none => none
      | some (g1, r1) =>
        match lazyUntil ['\"'] r1 with
        | none => none
        | some (g2, _) => some (g1, g2)

/-- Lazy `(.*?)` terminated by `":` followed by a nonempty greedy digit run,
with genuine backtracking over candidate `":`-occurrences (a `":` not
followed by a digit is absorbed into the capture and scanning resumes). -/
def maxInner : List Char → Option (List Char × List Char)
  | [] => none
  | c :: cs =>
    if quoteColon.isPrefixOf (c :: cs) ∧ (digitRun (List.drop 2 (c :: cs))).1 ≠ [] then
      some ([], (digitRun (List.drop 2 (c :: cs))).1)
    else
      match maxInner cs with
      | some (g, d) => some (c :: g, d)
      | none => none

/-- `re.search(r'ordermax_list = \{.*?"(.*?)":(\d+)', html, re.DOTALL)`:
capture of (key, digits) of the first entry of the inline max-quantity
literal; the leading stages collapse to first occurrences as in
`stockMatch`, the key capture backtracks via `maxInner`. -/
def maxMatch (s : List Char) : Option (List Char × List Char) :=
  match dropAfterFirst maxLit s with
  | none => none
  | some r =>
    match lazyUntil ['\"'] r with
    | none => none
    | some (_, r0) => maxInner r0

/-- Shared availability flag of both extractors: the captured stock glyph
equals `"○"`; a missing marker yields `false`
(`is_stock = stock_match.group(2) == "○" if stock_match else False` in
`pb_worker.scrape_pb`, `available = stock and stock.group(2) == "○"` in
`app.scrape_premium_bandai`). -/
def stockAvailable (html : String) : Bool :=
  match stockMatch html.toList with
  | some (_, v) => v == "○".toList
  | none => false

/-- `qty = max_match.group(2) if max_match else "0"`. -/
def qtyOf (html : String) : String :=
  match maxMatch html.toList with
  | some (_, d) => String.mk d
  | none => "0"

/-- Outcome of the outbound HTTP GET (`requests.get(url, impersonate=...,
timeout=15)`): a 200 response with a body, a non-200 status, or a raised
exception (timeout, connection error, ...). -/
inductive FetchOutcome where
  | ok (html : String)
  | httpError
  | exn
deriving DecidableEq

/-- Result tuple of `pb_worker.scrape_pb`. -/
structure PbScrape where
  res : String
  is_stock : Bool
  qty : String
deriving DecidableEq

/-- `pb_worker.scrape_pb`: a non-200 status yields `("Error", False, 0)`, a
raised exception is caught and yields `("Exception", False, 0)`, otherwise
`("Success", is_stock, qty)`.  (The numeric `0` of the failure tuples is
rendered `"0"` here; `main` never reads `qty` outside the Success branch, so
the difference is unobservable.) -/
def scrape_pb : FetchOutcome → PbScrape
  | FetchOutcome.httpError => ⟨"Error", false, "0"⟩
  | FetchOutcome.exn => ⟨"Exception", false, "0"⟩
  | FetchOutcome.ok html => ⟨"Success", stockAvailable html, qtyOf html⟩

/-- Product snapshot dict built by `app.scrape_premium_bandai`. -/
structure Snapshot where
  title : String
  price : String
  inStock : Bool
  statusText : String
  imageUrl : Option String
  url : String
deriving DecidableEq

/-- `title.group(1) if title else "不明な商品"` for `<title>(.*?) \|`. -/
def titleOf (html : String) : String :=
  match searchLitLazyLine "<title>".toList " |".toList html.toList with
  | some g => String.mk g
  | none => "不明な商品"

/-- `f"{price.group(1)}円" if price else "---"` for `price: '(\d+)'`. -/
def priceOf (html : String) : String :=
  match searchPriceFrom html.toList with
  | some d => String.mk d ++ "円"
  | none => "---"

/-- `image.group(1) if image else None` for the `og:image` meta pattern. -/
def imageOf (html : String) : Option String :=
  (searchLitLazyLine "<meta property=\"og:image\" content=\"".toList ['\"']
    html.toList).map String.mk

/-- `app.scrape_premium_bandai`: `None` on a non-200 status or a raised
exception (both caught inside the function), otherwise a field-by-field
extracted snapshot — each field degrades to its sentinel independently. -/
def scrape_premium_bandai (url : String) : FetchOutcome → Option Snapshot
  | FetchOutcome.httpError => none
  | FetchOutcome.exn => none
  | FetchOutcome.ok html =>
    some { title := titleOf html
           price := priceOf html
           inStock := stockAvailable html
           statusText := if stockAvailable html then "在庫あり" else "在庫なし"
           imageUrl := imageOf html
           url := url }

/-- One monitoring task as assembled by `pb_worker.get_tasks`. -/
structure PbTask where
  url : String
  line_id : Option String
  prev_status : String
deriving DecidableEq

/-- Pure effect summary of one iteration body of `pb_worker.main`'s inner
loop: the scrape verdict, the Firestore `lastStatus` payload written on any
successful scrape (`lastChecked` is refreshed alongside), and the
`send_line_push` calls issued. -/
structure PbStep where
  res : String
  write : Option String
  notes : List (Option String × String)
deriving DecidableEq

/-- The per-task body of `pb_worker.main`: on `"Success"` build the status
text, push a notification only when the item is in stock and the previous
status text does not contain `"在庫あり"`, then update Firestore; on any
other verdict do nothing. -/
def pb_process (task : PbTask) (f : FetchOutcome) : PbStep :=
  let s := scrape_pb f
  if s.res = "Success" then
    { res := s.res
      write := some ((if s.is_stock then "在庫あり" else "在庫なし") ++
        "(" ++ s.qty ++ ")")
      notes :=
        if s.is_stock && !(containsSeq "在庫あり".toList task.prev_status.toList) then
          [(task.line_id, "🔥在庫復活！\n最大" ++ s.qty ++ "個\n" ++ task.url)]
        else [] }
  else { res := s.res, write := none, notes := [] }

/-- One user record as read by `pb_worker.get_tasks`: `settings` is `none`
when the profile/settings document does not exist, and `some x` when it
exists with `lineUserId = x` (itself optional); `items` are the
`(lastStatus, url)` pairs of the user's watchlist. -/
structure PbUser where
  settings : Option (Option String)
  items : List (Option String × String)

/-- The exception message raised by `settings.exists()`. -/
def pbGetTasksError : String := "TypeError: 'bool' object is not callable"

/-- `pb_worker.get_tasks`: the loop body evaluates `settings.exists()` for
each user, but `DocumentSnapshot.exists` is a property of the Firestore
client library, not a method, so that call raises
`TypeError: 'bool' object is not callable` for the very first user —
whatever the settings contents — and `get_tasks` has no try/except.  Only
an empty user collection lets the function return, with an empty task
list.  (`app.py` uses the property form `line_ref.exists` correctly; the
worker's call form is a slip.) -/
def pb_get_tasks (_my_id : Option String) :
    List PbUser → Except String (List PbTask)
  | [] => Except.ok []
  | _ :: _ => Except.error pbGetTasksError

/-- The task dict literal of `get_tasks` (the per-item mapping the loop
would apply were the `settings.exists()` call not raising): `line_id` is
the stored `lineUserId` when the settings document exists, else the global
`MY_ID` fallback, and `prev_status` defaults to `""` when `lastStatus` is
missing. -/
def pb_task_of_item (my_id : Option String) (settings : Option (Option String))
    (it : Option String × String) : PbTask :=
  { url := it.2
    line_id := match settings with
      | some d => d
      | none => my_id
    prev_status := it.1.getD "" }

/-- `random.randint(lo, hi)` (both bounds inclusive), driven by an oracle. -/
def randint (lo hi oracle : Nat) : Nat := lo + oracle % (hi - lo + 1)

/-- Observable events of a sweep, shared by both job variants. -/
inductive Ev where
  | checked (url : String)
  | notified (dst : Option String) (msg : String)
  | wrote (url : String) (payload : String)
  | slept (d : Nat)
deriving DecidableEq

/-- Per-task environment of one `pb_worker.main` iteration: the fetch
outcome, whether the Firestore `update` call raises, whether the
`push_message` call (if reached) raises an exception other than the caught
`LineBotApiError` (e.g. a network-level error), and the oracle feeding
`random.randint(10, 20)`. -/
structure PbEnv where
  task : PbTask
  fetch : FetchOutcome
  storeRaises : Bool
  notifyRaises : Bool
  sleepOracle : Nat

/-- Whether the `push_message` call inside `send_line_push` is reached and
raises uncaught: an attempt is only made when a notification call was
issued and both the module token and the recipient are truthy (the guard
`if not to_user_id or not LINE_TOKEN: return`); `send_line_push` catches
only `LineBotApiError`, so any other exception propagates. -/
def pbPushRaises (token : Option String) (e : PbEnv) (st : PbStep) : Bool :=
  e.notifyRaises && !st.notes.isEmpty
    && !(token.getD "" == "") && !(e.task.line_id.getD "" == "")

/-- The inner for-loop of `pb_worker.main` as an event trace.  Scrape
exceptions are absorbed inside `scrape_pb`; the notification attempt
precedes the Firestore update, and an uncaught exception from either
propagates (there is no try/except at the item boundary) and aborts the
loop, the process included.  The randomized 10–20 second sleep runs at the
end of every iteration.  Returns the events and whether the sweep completed
without an uncaught exception. -/
def pb_sweep (token : Option String) : List PbEnv → List Ev × Bool
  | [] => ([], true)
  | e :: rest =>
    let st := pb_process e.task e.fetch
    let noteEvs := st.notes.map fun n => Ev.notified n.1 n.2
    if pbPushRaises token e st then
      (Ev.checked e.task.url :: noteEvs, false)
    else
      match st.write with
      | some payload =>
        if e.storeRaises then (Ev.checked e.task.url :: noteEvs, false)
        else
          let (evs, ok) := pb_sweep token rest
          (Ev.checked e.task.url :: noteEvs ++
            Ev.wrote e.task.url payload ::
            Ev.slept (randint 10 20 e.sleepOracle) :: evs, ok)
      | none =>
        let (evs, ok) := pb_sweep token rest
        (Ev.checked e.task.url ::
          Ev.slept (randint 10 20 e.sleepOracle) :: evs, ok)

/-- One full cycle of `pb_worker.main`: `get_tasks()` then the sweep, each
task paired with its runtime context (fetch outcome, store-raise flag,
notify-raise flag, sleep oracle).  The `TypeError` raised inside
`get_tasks` propagates and kills the cycle before any task is checked. -/
def pb_cycle (token my_id : Option String) (users : List PbUser)
    (ctx : List (FetchOutcome × Bool × Bool × Nat)) : List Ev × Bool :=
  match pb_get_tasks my_id users with
  | Except.error _ => ([], false)
  | Except.ok tasks =>
    pb_sweep token (tasks.zipWith
      (fun t c => ⟨t, c.1, c.2.1, c.2.2.1, c.2.2.2⟩) ctx)

/-- Inter-cycle wait of `pb_worker.main`: `random.randint(300, 600)`. -/
def pb_cycle_wait (oracle : Nat) : Nat := randint 300 600 oracle

/-- A watchlist document as read by `app.check_watchlist_job`; optional
fields model `dict.get` misses, `lastChecked` is an opaque timestamp. -/
structure AppDoc where
  url : String
  title : Option String
  inStock : Option Bool
  statusText : Option String
  lastNotifiedStatus : Option Bool
  lastChecked : Option Nat
deriving DecidableEq

/-- The exact field set of the single `item_doc.reference.update({...})`
call of `check_watchlist_job` (`lastChecked` gets `SERVER_TIMESTAMP`,
modelled as the cycle's `now`). -/
structure AppUpdate where
  inStock : Bool
  statusText : String
  lastChecked : Nat
  lastNotifiedStatus : Bool
deriving DecidableEq

/-- Applying the update payload to the stored document. -/
def applyUpdate (d : AppDoc) (u : AppUpdate) : AppDoc :=
  { d with inStock := some u.inStock
           statusText := some u.statusText
           lastChecked := some u.lastChecked
           lastNotifiedStatus := some u.lastNotifiedStatus }

/-- Pure effect summary of one item body of `check_watchlist_job`: the
update payload (if any) and the `send_line_notification` calls issued. -/
structure AppStep where
  update : Option AppUpdate
  notes : List (String × String)
deriving DecidableEq

/-- One item body of `app.check_watchlist_job`: `continue` when the scrape
returns `None`; when the fresh `inStock` differs from the stored one
(missing treated as `False`), write all four fields and send exactly one
notification; otherwise do nothing at all. -/
def check_item (line_user_id : String) (doc : AppDoc) (f : FetchOutcome)
    (now : Nat) : AppStep :=
  match scrape_premium_bandai doc.url f with
  | none => { update := none, notes := [] }
  | some scraped =>
    let prev := doc.inStock.getD false
    let cur := scraped.inStock
    if prev ≠ cur then
      { update := some ⟨cur, scraped.statusText, now, cur⟩
        notes := [(line_user_id,
          "📦 在庫変動通知\n" ++ doc.title.getD "名称不明" ++
          "\n状態: " ++ scraped.statusText ++ "\n" ++ doc.url)] }
    else { update := none, notes := [] }

/-- The stored document after one item body. -/
def appDocAfter (doc : AppDoc) (st : AppStep) : AppDoc :=
  match st.update with
  | none => doc
  | some u => applyUpdate doc u

/-- Per-item environment of the timer-driven job: the stored document, the
fetch outcome, the timestamp, whether the Firestore `update` raises, and
whether the `push_message` call (if reached) raises an exception other
than the caught `LineBotApiError`. -/
structure AppItemEnv where
  doc : AppDoc
  fetch : FetchOutcome
  now : Nat
  storeRaises : Bool
  notifyRaises : Bool

/-- Whether the `push_message` call inside `send_line_notification` is
reached and raises uncaught: an attempt needs a notification call with
both the module token and the recipient truthy (the guard
`if not LINE_TOKEN or not line_user_id: return`); only `LineBotApiError`
is caught. -/
def appPushRaises (token : Option String) (lid : String) (e : AppItemEnv)
    (st : AppStep) : Bool :=
  e.notifyRaises && !st.notes.isEmpty
    && !(token.getD "" == "") && !(lid == "")

/-- The item loop of `check_watchlist_job` for one user, as an event trace:
update (when a change was detected) then notification, no inter-item
sleep; a raised Firestore `update`, or an uncaught exception from the
notification client, propagates and aborts the job (no item-boundary
try/except) — though the latter strikes only after the update committed. -/
def app_items_sweep (token : Option String) (lid : String) :
    List AppItemEnv → List Ev × Bool
  | [] => ([], true)
  | e :: rest =>
    let st := check_item lid e.doc e.fetch e.now
    match st.update with
    | none =>
      let (evs, ok) := app_items_sweep token lid rest
      (Ev.checked e.doc.url :: evs, ok)
    | some u =>
      if e.storeRaises then ([Ev.checked e.doc.url], false)
      else if appPushRaises token lid e st then
        (Ev.checked e.doc.url :: Ev.wrote e.doc.url u.statusText ::
          (st.notes.map fun n => Ev.notified (some n.1) n.2), false)
      else
        let (evs, ok) := app_items_sweep token lid rest
        (Ev.checked e.doc.url :: Ev.wrote e.doc.url u.statusText ::
          (st.notes.map fun n => Ev.notified (some n.1) n.2) ++ evs, ok)

/-- Per-user environment of the timer-driven job: whether the
`settings/line` document exists, its `lineUserId` field, and the user's
watchlist items. -/
structure AppUserEnv where
  settingsExists : Bool
  lineUserId : Option String
  items : List AppItemEnv

/-- `app.check_watchlist_job`: a user whose `settings/line` document does
not exist, or whose `lineUserId` is missing or empty, is skipped with
`continue` before any item is touched; otherwise the user's items are
swept, and an uncaught per-item exception propagates out of the job. -/
def app_job (token : Option String) : List AppUserEnv → List Ev × Bool
  | [] => ([], true)
  | u :: rest =>
    match u.settingsExists, u.lineUserId with
    | false, _ => app_job token rest
    | true, none => app_job token rest
    | true, some lid =>
      if lid = "" then app_job token rest
      else
        let (evs, ok) := app_items_sweep token lid u.items
        if ok then
          let (evs2, ok2) := app_job token rest
          (evs ++ evs2, ok2)
        else (evs, false)

/-- Outcome of the single `push_message` call: delivered, a
`LineBotApiError` (which both senders catch and only log), or any other
raised exception (which neither sender catches). -/
inductive Delivery where
  | ok
  | apiError
  | raises
deriving DecidableEq

/-- `send_line_push` / `send_line_notification`: no attempt when the token
or the recipient is falsy; otherwise exactly one `push_message` attempt,
with no retry.  Returns the attempt count and whether an exception
propagates out of the sender (only a non-`LineBotApiError` one does). -/
def sendPush (token dst : Option String) (d : Delivery) : Nat × Bool :=
  if token.getD "" = "" then (0, false)
  else if dst.getD "" = "" then (0, false)
  else (1, decide (d = Delivery.raises))

/-- One item cycle of the timer job including notification delivery: the
Firestore update precedes the notification attempt, so the committed
document never depends on the delivery outcome; an uncaught delivery
exception (third component) aborts the job only after the commit.
Returns (final document, attempts, uncaught-raise flag). -/
def app_item_cycle (token : Option String) (lid : String) (doc : AppDoc)
    (f : FetchOutcome) (now : Nat) (d : Delivery) : AppDoc × Nat × Bool :=
  let st := check_item lid doc f now
  match st.notes with
  | [] => (appDocAfter doc st, 0, false)
  | n :: _ =>
    (appDocAfter doc st, (sendPush token (some n.1) d).1,
      (sendPush token (some n.1) d).2)

/-- One item cycle of the standalone worker including notification
delivery: the notification attempt precedes the Firestore write, so a
caught `LineBotApiError` cannot prevent the write, but an uncaught
exception from `push_message` aborts the body before the write commits.
Returns (committed write, attempts, uncaught-raise flag). -/
def pb_item_cycle (token : Option String) (task : PbTask) (f : FetchOutcome)
    (d : Delivery) : Option String × Nat × Bool :=
  let st := pb_process task f
  match st.notes with
  | [] => (st.write, 0, false)
  | n :: _ =>
    if (sendPush token n.1 d).2 then (none, (sendPush token n.1 d).1, true)
    else (st.write, (sendPush token n.1 d).1, false)

/-- `scheduler.add_job(check_watchlist_job, trigger="interval", minutes=10)`
in `app.py`'s startup block. -/
def app_cycle_interval_minutes : Nat := 10

/-- Predicate for `Ev.checked` events, used to count processed items. -/
def isChecked : Ev → Bool
  | Ev.checked _ => true
  | _ => false

/-- Consecutive cycles of the timer job acting on a single item: the store
is re-read each cycle, so each cycle sees the document left by the previous
one.  Returns the final document and the total number of notification
calls. -/
def app_run (lid : String) (doc : AppDoc) : List (FetchOutcome × Nat) → AppDoc × Nat
  | [] => (doc, 0)
  | (f, now) :: rest =>
    let st := check_item lid doc f now
    let (d, n) := app_run lid (appDocAfter doc st) rest
    (d, st.notes.length + n)

/-- Consecutive cycles of the standalone worker acting on a single item:
`get_tasks` re-reads `lastStatus` each cycle, so a successful cycle's write
becomes the next cycle's `prev_status` while a failed cycle leaves it.
Returns the final stored status text and the total number of notification
calls. -/
def pb_run (url : String) (line_id : Option String) (prev : String) :
    List FetchOutcome → String × Nat
  | [] => (prev, 0)
  | f :: rest =>
    let st := pb_process ⟨url, line_id, prev⟩ f
    let (p, n) := pb_run url line_id (st.write.getD prev) rest
    (p, st.notes.length + n)

/-- Concrete page body whose stock glyph is `"○"` and max quantity 3. -/
def hAvail : String :=
  "orderstock_list = \x7b\"k\":\"○\"\x7dordermax_list = \x7b\"k\":3\x7d"

/-- Concrete page body whose stock glyph is `"×"` and max quantity 3. -/
def hUnavail : String :=
  "orderstock_list = \x7b\"k\":\"×\"\x7dordermax_list = \x7b\"k\":3\x7d"

/-- Concrete page body with no stock marker at all. -/
def htmlPlain : String := "<p>no stock marker here</p>"

/-- Concrete page body holding only the stock marker with glyph `"○"`. -/
def htmlCircle : String := "orderstock_list = \x7b\"a\":\"○\"\x7d"

/-- Sweep environment used by the C4 witness: one task whose fetch raises
(caught inside `scrape_pb`) followed by one that succeeds; no store raise
and no uncaught notification raise. -/
def c4Envs : List PbEnv :=
  [⟨⟨"w1", some "L", ""⟩, FetchOutcome.exn, false, false, 0⟩,
   ⟨⟨"w2", some "L", ""⟩, FetchOutcome.ok hAvail, false, false, 1⟩]

/-- Stored document used by several witnesses: item currently available. -/
def docTrue : AppDoc := ⟨"u", none, some true, none, none, none⟩

/-- Stored document used by several witnesses: item currently unavailable. -/
def docFalse : AppDoc := ⟨"u", none, some false, none, none, none⟩

/-- Flap fetch sequence: available, unavailable, available. -/
def flapFetches : List (FetchOutcome × Nat) :=
  [(FetchOutcome.ok hAvail, 1), (FetchOutcome.ok hUnavail, 2),
   (FetchOutcome.ok hAvail, 3)]

/-- When the literal does not occur in `s`, the literal search fails. -/
theorem containsSeq_false_dropAfterFirst {lit : List Char} {s : List Char}
    (h : containsSeq lit s = false) : dropAfterFirst lit s = none := by
  induction s with
  | nil =>
    simp only [containsSeq] at h
    simp [dropAfterFirst, h]
  | cons c cs ih =>
    simp only [containsSeq, Bool.or_eq_false_iff] at h
    simp [dropAfterFirst, h.1, ih h.2]

/-- When the literal search succeeds, the literal occurs in `s`. -/
theorem dropAfterFirst_some_contains {lit s r : List Char}
    (h : dropAfterFirst lit s = some r) : containsSeq lit s = true := by
  cases hc : containsSeq lit s with
  | false => rw [containsSeq_false_dropAfterFirst hc] at h; cases h
  | true => rfl

/-- `pb_worker.scrape_pb` on a non-200 response, item level. -/
theorem pb_process_httpError (task : PbTask) :
    pb_process task FetchOutcome.httpError = ⟨"Error", none, []⟩ := by
  simp [pb_process, scrape_pb]

/-- `pb_worker.scrape_pb` on a caught exception, item level. -/
theorem pb_process_exn (task : PbTask) :
    pb_process task FetchOutcome.exn = ⟨"Exception", none, []⟩ := by
  simp [pb_process, scrape_pb]

/-- The timer job's item body is a no-op on a failed fetch. -/
theorem check_item_httpError (lid : String) (doc : AppDoc) (now : Nat) :
    check_item lid doc FetchOutcome.httpError now = ⟨none, []⟩ := rfl

/-- The timer job's item body is a no-op on a caught scrape exception. -/
theorem check_item_exn (lid : String) (doc : AppDoc) (now : Nat) :
    check_item lid doc FetchOutcome.exn now = ⟨none, []⟩ := rfl

/-- Notification characterisation of the timer job's item body on a 200
response: exactly one notification call, made iff the fresh availability
differs from the stored one. -/
theorem check_item_ok_notes (lid : String) (doc : AppDoc) (now : Nat)
    (html : String) :
    (check_item lid doc (FetchOutcome.ok html) now).notes.length = 1
      ↔ stockAvailable html ≠ doc.inStock.getD false := by
  by_cases h : doc.inStock.getD false = stockAvailable html
  · simp [check_item, scrape_premium_bandai, h]
  · simp [check_item, scrape_premium_bandai, h, Ne.symm h]

/-- Notification characterisation of the standalone worker's item body on a
200 response: one notification call iff in stock and the previous status
text lacks the in-stock marker. -/
theorem pb_process_ok_notes (task : PbTask) (html : String) :
    (pb_process task (FetchOutcome.ok html)).notes.length = 1
      ↔ (stockAvailable html = true
          ∧ containsSeq "在庫あり".toList task.prev_status.toList = false) := by
  by_cases h1 : stockAvailable html
  · cases hc : containsSeq "在庫あり".toList task.prev_status.toList <;>
      simp_all [pb_process, scrape_pb]
  · simp [pb_process, scrape_pb, h1]

end PBandai

namespace PBandai

/-- C2: on HTML in which the stock marker (the `orderstock_list` inline
associative literal) is absent, the extractor yields `available = false`,
never `true`; availability is `true` only when the marker is present and
its captured value equals the glyph `"○"`.  The flag is the one consumed
by both `scrape_pb` and `scrape_premium_bandai`. -/
theorem C2_fail_closed (html : String) (url : String) :
    (containsSeq stockLit html.toList = false → stockAvailable html = false) ∧
    (stockAvailable html = true →
      containsSeq stockLit html.toList = true ∧
      ∃ k v, stockMatch html.toList = some (k, v) ∧ v = "○".toList) ∧
    (scrape_pb (FetchOutcome.ok html)).is_stock = stockAvailable html ∧
    (scrape_premium_bandai url (FetchOutcome.ok html)).map Snapshot.inStock
      = some (stockAvailable html) := by
  refine ⟨?_, ?_, rfl, rfl⟩
  · intro h
    unfold stockAvailable
    rw [stockMatch, containsSeq_false_dropAfterFirst h]
  · intro h
    unfold stockAvailable at h
    cases hm : stockMatch html.toList with
    | none => rw [hm] at h; cases h
    | some kv =>
      rw [hm] at h
      obtain ⟨k, v⟩ := kv
      refine ⟨?_, k, v, rfl, eq_of_beq h⟩
      cases hd : dropAfterFirst stockLit html.toList with
      | none => rw [stockMatch, hd] at hm; cases hm
      | some r => exact dropAfterFirst_some_contains hd

/-- Witness for C2 at concrete inputs: a page with no marker is reported
unavailable, and a page whose marker carries `"○"` exhibits the marker and
the captured glyph. -/
theorem C2_fail_closed_witness :
    stockAvailable htmlPlain = false ∧
    (containsSeq stockLit htmlCircle.toList = true ∧
      ∃ k v, stockMatch htmlCircle.toList = some (k, v) ∧ v = "○".toList) :=
  ⟨(C2_fail_closed htmlPlain "u").1 (by decide),
   (C2_fail_closed htmlCircle "u").2.1 (by decide)⟩

/-- C3: a failed fetch (non-200 status, or any caught scrape exception such
as a timeout) leaves the persisted item state completely unchanged and
sends no notification, in both job variants. -/
theorem C3_fetch_failure_frame :
    (∀ task, pb_process task FetchOutcome.httpError = ⟨"Error", none, []⟩
      ∧ pb_process task FetchOutcome.exn = ⟨"Exception", none, []⟩) ∧
    (∀ lid doc now,
      check_item lid doc FetchOutcome.httpError now = ⟨none, []⟩
      ∧ check_item lid doc FetchOutcome.exn now = ⟨none, []⟩
      ∧ appDocAfter doc (check_item lid doc FetchOutcome.httpError now) = doc
      ∧ appDocAfter doc (check_item lid doc FetchOutcome.exn now) = doc) :=
  ⟨fun task => ⟨pb_process_httpError task, pb_process_exn task⟩,
   fun lid doc now =>
     ⟨check_item_httpError lid doc now, check_item_exn lid doc now, rfl, rfl⟩⟩

/-- C1 counterexample: in `pb_worker.main` a successful fetch showing an
available→unavailable change (previous status text `"在庫あり(3)"`, fresh
glyph `"×"`) sends no notification, although the claim requires each
direction to fire one. -/
theorem C1_counterexample :
    pb_process ⟨"u", some "L", "在庫あり(3)"⟩ (FetchOutcome.ok hUnavail)
      = { res := "Success", write := some "在庫なし(3)", notes := [] } := by
  decide

/-- C1 amended: in the timer-driven job a notification fires iff the fetch
succeeded and the fresh availability differs from the stored one, in both
directions, exactly once; in the standalone worker a notification fires iff
the fetch succeeded, the item is in stock and the stored status text does
not contain `"在庫あり"` — the available→unavailable direction never
notifies there. -/
theorem C1_amended :
    (∀ lid doc now,
      (check_item lid doc FetchOutcome.httpError now).notes = []
      ∧ (check_item lid doc FetchOutcome.exn now).notes = []) ∧
    (∀ lid doc now html,
      (check_item lid doc (FetchOutcome.ok html) now).notes.length = 1
        ↔ stockAvailable html ≠ doc.inStock.getD false) ∧
    (∀ task,
      (pb_process task FetchOutcome.httpError).notes = []
      ∧ (pb_process task FetchOutcome.exn).notes = []) ∧
    (∀ task html,
      (pb_process task (FetchOutcome.ok html)).notes.length = 1
        ↔ (stockAvailable html = true
            ∧ containsSeq "在庫あり".toList task.prev_status.toList = false)) :=
  ⟨fun lid doc now => ⟨rfl, rfl⟩,
   fun lid doc now html => check_item_ok_notes lid doc now html,
   fun task => ⟨by rw [pb_process_httpError], by rw [pb_process_exn]⟩,
   fun task html => pb_process_ok_notes task html⟩

/-- Notification events are never counted as checks (worker form). -/
theorem countP_isChecked_notes (l : List (Option String × String)) :
    (l.map fun n => Ev.notified n.1 n.2).countP isChecked = 0 := by
  induction l with
  | nil => rfl
  | cons a l ih => simp [List.countP_cons, ih, isChecked]

/-- Notification events are never counted as checks (timer-job form). -/
theorem countP_isChecked_app_notes (l : List (String × String)) :
    (l.map fun n => Ev.notified (some n.1) n.2).countP isChecked = 0 := by
  induction l with
  | nil => rfl
  | cons a l ih => simp [List.countP_cons, ih, isChecked]

/-- C4 counterexample: the Firestore update for item 1 raises (there is no
try/except at the item boundary of `pb_worker.main`), so the sweep aborts
and item 2 is never fetched — refuting whole-sweep isolation for store
failures. -/
theorem C4_counterexample :
    pb_sweep (some "T")
      [⟨⟨"u1", some "L", ""⟩, FetchOutcome.ok hUnavail, true, false, 0⟩,
       ⟨⟨"u2", some "L", ""⟩, FetchOutcome.ok hUnavail, false, false, 0⟩]
      = ([Ev.checked "u1"], false) := by
  decide

/-- C4 amended: exceptions raised during fetch or parse are caught inside
the scrape call, so in either loop a sweep in which no store write raises
and no notification client raises uncaught checks every one of its N items
and completes, whatever the fetch outcomes; an exception from a store
write (or a non-`LineBotApiError` one from the notification client), by
contrast, propagates and aborts the remainder of the sweep — shown here
for the timer job's store write as well. -/
theorem C4_amended :
    (∀ token envs,
      (∀ e ∈ envs, e.storeRaises = false ∧ e.notifyRaises = false) →
      (pb_sweep token envs).2 = true ∧
      (pb_sweep token envs).1.countP isChecked = envs.length) ∧
    (∀ token lid envs,
      (∀ e ∈ envs, e.storeRaises = false ∧ e.notifyRaises = false) →
      (app_items_sweep token lid envs).2 = true ∧
      (app_items_sweep token lid envs).1.countP isChecked = envs.length) ∧
    (∀ token lid e rest, e.storeRaises = true →
      (check_item lid e.doc e.fetch e.now).update.isSome = true →
      app_items_sweep token lid (e :: rest)
        = ([Ev.checked e.doc.url], false)) := by
  refine ⟨?_, ?_, ?_⟩
  · intro token envs
    induction envs with
    | nil => intro h; exact ⟨rfl, rfl⟩
    | cons e rest ih =>
      intro h
      obtain ⟨hs, hn⟩ := h e (List.mem_cons_self e rest)
      obtain ⟨ih1, ih2⟩ := ih fun x hx => h x (List.mem_cons_of_mem e hx)
      rcases hr : pb_sweep token rest with ⟨evs, okr⟩
      rw [hr] at ih1 ih2
      have hpr : pbPushRaises token e (pb_process e.task e.fetch) = false := by
        simp [pbPushRaises, hn]
      cases hw : (pb_process e.task e.fetch).write with
      | none =>
        simp [pb_sweep, hpr, hw, hr, List.countP_cons, isChecked, ih1, ih2]
      | some payload =>
        simp [pb_sweep, hpr, hw, hs, hr, List.countP_cons, List.countP_append,
          isChecked, countP_isChecked_notes, ih1, ih2]
  · intro token lid envs
    induction envs with
    | nil => intro h; exact ⟨rfl, rfl⟩
    | cons e rest ih =>
      intro h
      obtain ⟨hs, hn⟩ := h e (List.mem_cons_self e rest)
      obtain ⟨ih1, ih2⟩ := ih fun x hx => h x (List.mem_cons_of_mem e hx)
      rcases hr : app_items_sweep token lid rest with ⟨evs, okr⟩
      rw [hr] at ih1 ih2
      have hpr : appPushRaises token lid e
          (check_item lid e.doc e.fetch e.now) = false := by
        simp [appPushRaises, hn]
      cases hw : (check_item lid e.doc e.fetch e.now).update with
      | none =>
        simp [app_items_sweep, hw, hr, List.countP_cons, isChecked, ih1, ih2]
      | some u =>
        simp [app_items_sweep, hw, hs, hpr, hr, List.countP_cons,
          List.countP_append, isChecked, countP_isChecked_app_notes, ih1, ih2]
  · intro token lid e rest hs hw
    cases hu : (check_item lid e.doc e.fetch e.now).update with
    | none => rw [hu] at hw; cases hw
    | some u => simp [app_items_sweep, hu, hs]

/-- Witness for C4 amended: a two-item worker sweep whose first fetch
raises (and is caught) still checks both items and completes, and a
concrete timer-job item whose store write raises aborts the sweep at that
item. -/
theorem C4_amended_witness :
    ((pb_sweep (some "T") c4Envs).2 = true ∧
      (pb_sweep (some "T") c4Envs).1.countP isChecked = c4Envs.length) ∧
    app_items_sweep (some "T") "L"
      [⟨docTrue, FetchOutcome.ok hUnavail, 7, true, false⟩]
      = ([Ev.checked "u"], false) :=
  ⟨C4_amended.1 (some "T") c4Envs (by decide),
   C4_amended.2.2 (some "T") "L"
     ⟨docTrue, FetchOutcome.ok hUnavail, 7, true, false⟩ [] rfl (by decide)⟩

/-- C5 counterexample: an item flapping available → unavailable → available
over three consecutive successful fetches of `pb_worker.main` produces only
one notification (for the upward transition), not the two the claim
requires. -/
theorem C5_counterexample :
    pb_run "u" (some "L") "在庫あり(3)"
      [FetchOutcome.ok hAvail, FetchOutcome.ok hUnavail, FetchOutcome.ok hAvail]
      = ("在庫あり(3)", 1) := by
  decide

/-- C5 amended: in the timer-driven job the three-way classification holds
for every prior/new combination — a change writes and notifies exactly
once, no change does nothing — so a flap over three successful fetches
notifies exactly twice; the standalone worker never notifies while the item
is out of stock, so a flap yields a single notification there. -/
theorem C5_amended :
    (∀ lid doc h1 h2 h3 n1 n2 n3,
      doc.inStock = some true →
      stockAvailable h1 = true → stockAvailable h2 = false →
      stockAvailable h3 = true →
      (app_run lid doc [(FetchOutcome.ok h1, n1), (FetchOutcome.ok h2, n2),
        (FetchOutcome.ok h3, n3)]).2 = 2) ∧
    (∀ lid doc now html,
      ((check_item lid doc (FetchOutcome.ok html) now).update.isSome
          = (stockAvailable html != doc.inStock.getD false))
      ∧ ((check_item lid doc (FetchOutcome.ok html) now).notes.length = 1
          ↔ stockAvailable html ≠ doc.inStock.getD false)) ∧
    (∀ task html, stockAvailable html = false →
      (pb_process task (FetchOutcome.ok html)).notes = []) := by
  refine ⟨?_, ?_, ?_⟩
  · intro lid doc h1 h2 h3 n1 n2 n3 hd ha1 ha2 ha3
    simp [app_run, check_item, scrape_premium_bandai, appDocAfter,
      applyUpdate, hd, ha1, ha2, ha3]
  · intro lid doc now html
    constructor
    · cases hb : doc.inStock.getD false <;> cases hs : stockAvailable html <;>
        simp [check_item, scrape_premium_bandai, hb, hs]
    · exact check_item_ok_notes lid doc now html
  · intro task html h
    simp [pb_process, scrape_pb, h]

/-- Witness for C5 amended: a concrete flap of the timer job on an
available item yields exactly two notifications. -/
theorem C5_amended_witness :
    (app_run "L" docTrue flapFetches).2 = 2 :=
  C5_amended.1 "L" docTrue hAvail hUnavail hAvail 1 2 3 (by decide)
    (by decide) (by decide) (by decide)

/-- C6 counterexample: in `pb_worker`, an owner with no settings document
(and no global fallback recipient either) is not silently skipped: the
per-user `settings.exists()` call of `get_tasks` raises `TypeError`
(`DocumentSnapshot.exists` is a property), so an error is raised for the
owner and the whole cycle dies before any task is returned — contradicting
the claim's "skipped entirely … and no error is raised". -/
theorem C6_counterexample :
    pb_get_tasks none [⟨none, [(none, "u")]⟩] = Except.error pbGetTasksError ∧
    pb_cycle (some "T") none [⟨none, [(none, "u")]⟩]
      [(FetchOutcome.httpError, false, false, 0)] = ([], false) := by
  exact ⟨rfl, rfl⟩

/-- C6 amended: in the timer-driven job, a user whose channel settings
document is missing, or whose channel handle is missing or empty, is
skipped entirely — their items contribute no fetch, no write, no
notification and no error; in the standalone worker no owner is ever
skipped or processed at all: `get_tasks` raises `TypeError` at its
`settings.exists()` call for the very first user, channel configured or
not, so any cycle with at least one registered user crashes before task
enumeration, and only a userless store lets it return (empty-handed). -/
theorem C6_amended :
    (∀ token u rest, (u.settingsExists = false ∨ u.lineUserId.getD "" = "") →
      app_job token (u :: rest) = app_job token rest) ∧
    (∀ my_id u us, pb_get_tasks my_id (u :: us) = Except.error pbGetTasksError) ∧
    (∀ my_id, pb_get_tasks my_id [] = Except.ok []) := by
  refine ⟨?_, fun my_id u us => rfl, fun my_id => rfl⟩
  intro token u rest h
  rcases h with h | h
  · simp [app_job, h]
  · cases hl : u.lineUserId with
    | none => cases hse : u.settingsExists <;> simp [app_job, hse, hl]
    | some l =>
      have hle : l = "" := by simpa [hl] using h
      cases hse : u.settingsExists <;> simp [app_job, hse, hl, hle]

/-- Witness for C6 amended: a user without a settings document contributes
nothing to the timer job. -/
theorem C6_amended_witness :
    app_job (some "T") [⟨false, some "L", []⟩] = app_job (some "T") [] :=
  C6_amended.1 (some "T") ⟨false, some "L", []⟩ [] (Or.inl rfl)

/-- A delivery attempt is made only behind the token/recipient guard, and
at most one attempt results. -/
theorem sendPush_le_one (token dst : Option String) (d : Delivery) :
    (sendPush token dst d).1 ≤ 1 := by
  unfold sendPush
  split_ifs <;> simp

/-- The item body of the timer job issues either no notification call or
exactly one, addressed to the resolved channel handle. -/
theorem check_item_notes_shape (lid : String) (doc : AppDoc)
    (f : FetchOutcome) (now : Nat) :
    (check_item lid doc f now).notes = [] ∨
    ∃ msg, (check_item lid doc f now).notes = [(lid, msg)] := by
  unfold check_item
  cases scrape_premium_bandai doc.url f with
  | none => exact Or.inl rfl
  | some s =>
    by_cases h : doc.inStock.getD false ≠ s.inStock <;> simp [h]

/-- The item body of the standalone worker issues either no notification
call or exactly one, addressed to the task's resolved recipient. -/
theorem pb_process_notes_shape (task : PbTask) (f : FetchOutcome) :
    (pb_process task f).notes = [] ∨
    ∃ msg, (pb_process task f).notes = [(task.line_id, msg)] := by
  cases f with
  | httpError => exact Or.inl (by rw [pb_process_httpError])
  | exn => exact Or.inl (by rw [pb_process_exn])
  | ok html =>
    by_cases h1 : stockAvailable html
    · cases hc : containsSeq "在庫あり".toList task.prev_status.toList
      · refine Or.inr
          ⟨"🔥在庫復活！\n最大" ++ qtyOf html ++ "個\n" ++ task.url, ?_⟩
        simp_all [pb_process, scrape_pb]
      · exact Or.inl (by simp_all [pb_process, scrape_pb])
    · exact Or.inl (by simp [pb_process, scrape_pb, h1])

/-- The first component of the timer job's item cycle is always the
committed document, whatever the delivery outcome: the update precedes the
notification attempt. -/
theorem app_item_cycle_fst (token : Option String) (lid : String)
    (doc : AppDoc) (f : FetchOutcome) (now : Nat) (d : Delivery) :
    (app_item_cycle token lid doc f now d).1
      = appDocAfter doc (check_item lid doc f now) := by
  cases hnotes : (check_item lid doc f now).notes <;>
    simp [app_item_cycle, hnotes]

/-- C7 counterexample: in `pb_worker` the notification precedes the
Firestore write and `send_line_push` catches only `LineBotApiError`, so an
uncaught delivery exception (e.g. a network error from `push_message`)
prevents the persisted update: a concrete detected transition whose
delivery raises commits nothing, although `pb_process` had a write
pending. -/
theorem C7_counterexample :
    pb_item_cycle (some "T") ⟨"u", some "L", ""⟩ (FetchOutcome.ok hAvail)
      Delivery.raises = (none, 1, true) ∧
    (pb_process ⟨"u", some "L", ""⟩ (FetchOutcome.ok hAvail)).write
      = some "在庫あり(3)" := by
  decide

/-- C7 amended: a delivery failure of the caught kind (`LineBotApiError`)
never undoes or prevents the state update in either variant, and each
detected transition makes at most one delivery attempt (exactly one when
token and recipient are configured), with no retry.  In the timer-driven
job the update precedes the notification, so the committed document is the
same for every delivery outcome, uncaught exceptions included; in the
standalone worker the notification precedes the update, so while every
non-raising outcome leaves the write intact, an uncaught delivery
exception prevents the write for that cycle. -/
theorem C7_amended :
    (∀ token lid doc f now d,
      (app_item_cycle token lid doc f now d).1
        = appDocAfter doc (check_item lid doc f now) ∧
      (∀ u, (check_item lid doc f now).update = some u →
        (app_item_cycle token lid doc f now d).1 = applyUpdate doc u) ∧
      (∀ html u,
        (check_item lid doc (FetchOutcome.ok html) now).update = some u →
        u.inStock = stockAvailable html) ∧
      (app_item_cycle token lid doc f now d).2.1 ≤ 1 ∧
      ((check_item lid doc f now).notes ≠ [] → token.getD "" ≠ "" →
        lid ≠ "" → (app_item_cycle token lid doc f now d).2.1 = 1)) ∧
    (∀ token task f,
      (∀ d, d ≠ Delivery.raises →
        (pb_item_cycle token task f d).1 = (pb_process task f).write) ∧
      (∀ d, (pb_item_cycle token task f d).2.1 ≤ 1) ∧
      ((pb_process task f).notes ≠ [] → token.getD "" ≠ "" →
        task.line_id.getD "" ≠ "" →
        ((pb_item_cycle token task f Delivery.ok).2.1 = 1
          ∧ (pb_item_cycle token task f Delivery.apiError).1
              = (pb_process task f).write
          ∧ (pb_item_cycle token task f Delivery.raises).1 = none
          ∧ (pb_item_cycle token task f Delivery.raises).2.2 = true))) := by
  constructor
  · intro token lid doc f now d
    refine ⟨app_item_cycle_fst token lid doc f now d, ?_, ?_, ?_, ?_⟩
    · intro u hu
      rw [app_item_cycle_fst]
      simp [appDocAfter, hu]
    · intro html u hu
      revert hu
      unfold check_item scrape_premium_bandai
      by_cases h : doc.inStock.getD false ≠ stockAvailable html <;>
        simp [h] <;> intro hu <;> simp [← hu]
    · cases hnotes : (check_item lid doc f now).notes with
      | nil => simp [app_item_cycle, hnotes]
      | cons n rest =>
        simp only [app_item_cycle, hnotes]
        exact sendPush_le_one token (some n.1) d
    · intro hn ht hl
      rcases check_item_notes_shape lid doc f now with h | ⟨msg, h⟩
      · exact absurd h hn
      · simp [app_item_cycle, h, sendPush, ht, hl]
  · intro token task f
    refine ⟨?_, ?_, ?_⟩
    · intro d hd
      cases hnotes : (pb_process task f).notes with
      | nil => simp [pb_item_cycle, hnotes]
      | cons n rest =>
        have hsnd : (sendPush token n.1 d).2 = false := by
          unfold sendPush
          split_ifs <;> simp_all
        simp [pb_item_cycle, hnotes, hsnd]
    · intro d
      cases hnotes : (pb_process task f).notes with
      | nil => simp [pb_item_cycle, hnotes]
      | cons n rest =>
        simp only [pb_item_cycle, hnotes]
        cases hs : (sendPush token n.1 d).2 <;>
          simp [hs, sendPush_le_one token n.1 d]
    · intro hn ht hl
      rcases pb_process_notes_shape task f with h | ⟨msg, h⟩
      · exact absurd h hn
      · refine ⟨?_, ?_, ?_, ?_⟩ <;> simp [pb_item_cycle, h, sendPush, ht, hl]

/-- Witness for C7 amended at concrete inputs: a timer-job transition
checked under a raising delivery still commits the update with one attempt
made; a worker transition keeps its write under the caught API error, makes
one attempt on success, and loses the write only under the uncaught
raise. -/
theorem C7_amended_witness :
    (app_item_cycle (some "T") "L" docTrue (FetchOutcome.ok hUnavail) 7
        Delivery.raises).1 = applyUpdate docTrue ⟨false, "在庫なし", 7, false⟩ ∧
    (⟨false, "在庫なし", 7, false⟩ : AppUpdate).inStock = stockAvailable hUnavail ∧
    (app_item_cycle (some "T") "L" docTrue (FetchOutcome.ok hUnavail) 7
        Delivery.raises).2.1 = 1 ∧
    (pb_item_cycle (some "T") ⟨"u", some "L", ""⟩ (FetchOutcome.ok hAvail)
        Delivery.apiError).1
      = (pb_process ⟨"u", some "L", ""⟩ (FetchOutcome.ok hAvail)).write ∧
    ((pb_item_cycle (some "T") ⟨"u", some "L", ""⟩ (FetchOutcome.ok hAvail)
        Delivery.ok).2.1 = 1
      ∧ (pb_item_cycle (some "T") ⟨"u", some "L", ""⟩ (FetchOutcome.ok hAvail)
          Delivery.apiError).1
        = (pb_process ⟨"u", some "L", ""⟩ (FetchOutcome.ok hAvail)).write
      ∧ (pb_item_cycle (some "T") ⟨"u", some "L", ""⟩ (FetchOutcome.ok hAvail)
          Delivery.raises).1 = none
      ∧ (pb_item_cycle (some "T") ⟨"u", some "L", ""⟩ (FetchOutcome.ok hAvail)
          Delivery.raises).2.2 = true) :=
  ⟨(C7_amended.1 (some "T") "L" docTrue (FetchOutcome.ok hUnavail) 7
      Delivery.raises).2.1 ⟨false, "在庫なし", 7, false⟩ (by decide),
   (C7_amended.1 (some "T") "L" docTrue (FetchOutcome.ok hUnavail) 7
      Delivery.raises).2.2.1 hUnavail ⟨false, "在庫なし", 7, false⟩ (by decide),
   (C7_amended.1 (some "T") "L" docTrue (FetchOutcome.ok hUnavail) 7
      Delivery.raises).2.2.2.2 (by decide) (by decide) (by decide),
   (C7_amended.2 (some "T") ⟨"u", some "L", ""⟩ (FetchOutcome.ok hAvail)).1
      Delivery.apiError (by decide),
   (C7_amended.2 (some "T") ⟨"u", some "L", ""⟩ (FetchOutcome.ok hAvail)).2.2
      (by decide) (by decide) (by decide)⟩

/-- `random.randint(lo, hi)` stays within its inclusive bounds. -/
theorem randint_bounds (lo hi o : Nat) :
    lo ≤ randint lo hi o ∧ randint lo hi o ≤ lo + (hi - lo) := by
  unfold randint
  constructor
  · exact Nat.le_add_right lo _
  · have h := Nat.mod_lt o (y := hi - lo + 1) (Nat.succ_pos _)
    omega

/-- C8 counterexample: the timer-driven job processes two consecutive items
back to back — its sweep trace contains no sleep event at all, refuting the
claimed universal 10–20 unit inter-item pacing. -/
theorem C8_counterexample :
    app_items_sweep (some "T") "L"
      [⟨⟨"u1", none, none, none, none, none⟩, FetchOutcome.httpError, 0,
          false, false⟩,
       ⟨⟨"u2", none, none, none, none, none⟩, FetchOutcome.httpError, 0,
          false, false⟩]
      = ([Ev.checked "u1", Ev.checked "u2"], true) := by
  decide

/-- C8 amended: in the continuous-loop worker every inter-item sleep lies
in [10, 20] and the inter-cycle wait lies in [300, 600]; the timer-driven
variant fires on a fixed 10-minute interval but performs no inter-item
pacing at all — its sweep never sleeps. -/
theorem C8_amended :
    (∀ token envs d,
      Ev.slept d ∈ (pb_sweep token envs).1 → 10 ≤ d ∧ d ≤ 20) ∧
    (∀ o, 300 ≤ pb_cycle_wait o ∧ pb_cycle_wait o ≤ 600) ∧
    app_cycle_interval_minutes = 10 ∧
    (∀ token lid envs d,
      Ev.slept d ∉ (app_items_sweep token lid envs).1) := by
  refine ⟨?_, ?_, rfl, ?_⟩
  · intro token envs
    induction envs with
    | nil => intro d h; cases h
    | cons e rest ih =>
      intro d h
      rcases hr : pb_sweep token rest with ⟨evs, okr⟩
      rw [hr] at ih
      obtain ⟨b1, b2⟩ := randint_bounds 10 20 e.sleepOracle
      cases hpr : pbPushRaises token e (pb_process e.task e.fetch) with
      | true =>
        simp [pb_sweep, hpr] at h
      | false =>
        cases hw : (pb_process e.task e.fetch).write with
        | none =>
          simp [pb_sweep, hpr, hw, hr] at h
          rcases h with h | h
          · omega
          · exact ih d h
        | some payload =>
          cases hsr : e.storeRaises with
          | true =>
            simp [pb_sweep, hpr, hw, hsr] at h
          | false =>
            simp [pb_sweep, hpr, hw, hsr, hr] at h
            rcases h with h | h
            · omega
            · exact ih d h
  · intro o
    obtain ⟨b1, b2⟩ := randint_bounds 300 600 o
    unfold pb_cycle_wait
    omega
  · intro token lid envs d
    induction envs with
    | nil => intro h; cases h
    | cons e rest ih =>
      intro h
      rcases hr : app_items_sweep token lid rest with ⟨evs, okr⟩
      rw [hr] at ih
      cases hw : (check_item lid e.doc e.fetch e.now).update with
      | none =>
        simp [app_items_sweep, hw, hr] at h
        exact ih h
      | some u =>
        cases hsr : e.storeRaises with
        | true =>
          simp [app_items_sweep, hw, hsr] at h
        | false =>
          cases hpr : appPushRaises token lid e
              (check_item lid e.doc e.fetch e.now) with
          | true =>
            simp [app_items_sweep, hw, hsr, hpr] at h
          | false =>
            simp [app_items_sweep, hw, hsr, hpr, hr] at h
            exact ih h

/-- Witness for C8 amended at concrete inputs: the single sleep of a
one-item worker sweep is within bounds, and a concrete timer sweep trace is
sleep-free. -/
theorem C8_amended_witness :
    (10 ≤ 10 ∧ (10 : Nat) ≤ 20) ∧
    Ev.slept 5 ∉ (app_items_sweep (some "T") "L" []).1 :=
  ⟨C8_amended.1 (some "T")
      [⟨⟨"u", none, ""⟩, FetchOutcome.httpError, false, false, 0⟩] 10
      (by decide),
   C8_amended.2.2.2 (some "T") "L" [] 5⟩

/-- C9: the claimed first-check notification is the evident intent of the
task dict (`lastStatus` defaulting to `""`) and the notify condition, but
it is unreachable in the shipped worker: `get_tasks` raises `TypeError` at
its `settings.exists()` call — a Firestore property called as a method —
before any `lastStatus` is read, so the worker never sends a first-check
notification.  The per-item mapping would default a missing `lastStatus`
to the empty string, and the loop body would then notify exactly once on a
first in-stock fetch. -/
theorem C9_unreachable_first_check :
    pb_get_tasks (some "ME") [⟨none, [(none, "u")]⟩]
      = Except.error pbGetTasksError ∧
    pb_task_of_item (some "ME") none (none, "u") = ⟨"u", some "ME", ""⟩ ∧
    (pb_process ⟨"u", some "ME", ""⟩ (FetchOutcome.ok hAvail)).notes
      = [(some "ME", "🔥在庫復活！\n最大3個\nu")] := by
  exact ⟨rfl, rfl, by decide⟩

/-- C10: when the fresh availability equals the stored flag, the timer job
issues no write whatsoever — availability, status text, last-notified flag
and the last-checked timestamp all stay exactly as stored — and no
notification. -/
theorem C10_unchanged_no_write (lid : String) (doc : AppDoc) (html : String)
    (now : Nat) (h : stockAvailable html = doc.inStock.getD false) :
    check_item lid doc (FetchOutcome.ok html) now = ⟨none, []⟩ ∧
    appDocAfter doc (check_item lid doc (FetchOutcome.ok html) now) = doc := by
  have hc : check_item lid doc (FetchOutcome.ok html) now = ⟨none, []⟩ := by
    simp [check_item, scrape_premium_bandai, h]
  exact ⟨hc, by rw [hc]; rfl⟩

/-- Witness for C10 at a concrete input: an unavailable page against a
stored `inStock = false` leaves the document untouched. -/
theorem C10_unchanged_no_write_witness :
    check_item "L" docFalse (FetchOutcome.ok hUnavail) 7 = ⟨none, []⟩ ∧
    appDocAfter docFalse (check_item "L" docFalse (FetchOutcome.ok hUnavail) 7)
      = docFalse :=
  C10_unchanged_no_write "L" docFalse hUnavail 7 (by decide)

end PBandai
